import Mathlib

/-!
Verification of the signed-URL issuance / streaming-proxy worker
(`src/worker.js`) against its specification.

The embedding translates the worker's pure core directly:

* `generateSignedUrl` / `verifySignedUrl` — the capability-token codec
  (worker.js lines 406-425).  JavaScript's `btoa` is modelled as base64
  over Latin-1 code units (failing, like `btoa`, on code points above
  255), `parseInt` as the usual leading-whitespace / sign / `0x` /
  decimal-prefix parser, and `Date.now()` as an explicit `now : Nat`
  argument.  Number-to-string coercion (`` `${expires}` ``) is modelled
  by `natRepr`.
* The key-value store (`env.VIDEOS`) is an association list from the
  actual key strings (`"video:" ++ id`, `"video:list"`) to a typed view
  of the JSON that the worker stores there (a record or an id list).
* The handlers `handleSaveMetadata`, `handleDelete`, `handleGetVideos`
  and `handleStream` are translated statement by statement; thrown
  exceptions (caught by each handler's `try`/`catch`, which answers
  500) are modelled by `Option`/explicit error results, and the two
  upstream origins are oracle functions from the forwarded `Range`
  header to an HTTP response.
-/

set_option maxRecDepth 4000

namespace Worker

/-! ## Base64 (`btoa`) -/

/-- The standard base64 alphabet, as used by `btoa`. -/
def b64Alphabet : List Char :=
  "ABCDEFGHIJKLMNOPQRSTUVWXYZabcdefghijklmnopqrstuvwxyz0123456789+/".data

/-- Base64 digit for a 6-bit value. -/
def b64Char (n : Nat) : Char := b64Alphabet.getD n 'A'

/-- Base64-encode a byte list (standard padding). -/
def base64Encode : List Nat → List Char
  | [] => []
  | [b0] => [b64Char (b0 / 4), b64Char (b0 % 4 * 16), '=', '=']
  | [b0, b1] => [b64Char (b0 / 4), b64Char (b0 % 4 * 16 + b1 / 16), b64Char (b1 % 16 * 4), '=']
  | b0 :: b1 :: b2 :: rest =>
    b64Char (b0 / 4) :: b64Char (b0 % 4 * 16 + b1 / 16) ::
      b64Char (b1 % 16 * 4 + b2 / 64) :: b64Char (b2 % 64) :: base64Encode rest

/-- JavaScript `btoa`: base64 of the string's code units; throws
(`none`) when some code point exceeds 255. -/
def btoa (s : String) : Option String :=
  if s.data.all (fun c => c.toNat ≤ 255) then
    some (String.mk (base64Encode (s.data.map Char.toNat)))
  else
    none

/-! ## JavaScript number-to-string and `parseInt` -/

/-- The decimal digit character for `d < 10`. -/
def digitChar (d : Nat) : Char := Char.ofNat (48 + d)

/-- Decimal digits of `n`, most significant first (fuelled). -/
def natDigitsAux : Nat → Nat → List Char
  | 0, _ => []
  | fuel + 1, n =>
    if n < 10 then [digitChar n]
    else natDigitsAux fuel (n / 10) ++ [digitChar (n % 10)]

/-- JavaScript number-to-string coercion for a natural value
(`` `${n}` ``). -/
def natRepr (n : Nat) : String := String.mk (natDigitsAux (n + 1) n)

/-- JavaScript whitespace skipped by `parseInt`. -/
def jsWhitespace (c : Char) : Bool :=
  c.toNat = 32 || c.toNat = 9 || c.toNat = 10 || c.toNat = 13 || c.toNat = 11 || c.toNat = 12

/-- Decimal digit test by code point. -/
def isDigitC (c : Char) : Bool := 48 ≤ c.toNat && c.toNat ≤ 57

/-- Hexadecimal digit test by code point. -/
def isHexDigitC (c : Char) : Bool :=
  (48 ≤ c.toNat && c.toNat ≤ 57) || (97 ≤ c.toNat && c.toNat ≤ 102) ||
    (65 ≤ c.toNat && c.toNat ≤ 70)

/-- Numeric value of a hexadecimal digit character. -/
def hexVal (c : Char) : Nat :=
  if 48 ≤ c.toNat && c.toNat ≤ 57 then c.toNat - 48
  else if 97 ≤ c.toNat then c.toNat - 87
  else c.toNat - 55

/-- Fold a list of decimal digit characters into the value they denote. -/
def foldDec (cs : List Char) : Nat := cs.foldl (fun a c => a * 10 + (c.toNat - 48)) 0

/-- Fold a list of hexadecimal digit characters into the value they denote. -/
def foldHex (cs : List Char) : Nat := cs.foldl (fun a c => a * 16 + hexVal c) 0

/-- Attach the sign recorded by `parseInt`'s leading `-`. -/
def intOfSign (neg : Bool) (n : Nat) : Int := if neg then -(n : Int) else (n : Int)

/-- `parseInt` after the sign and `0x` dispatch: the longest decimal
digit prefix, or NaN (`none`) when there is none. -/
def parseDec (neg : Bool) (cs : List Char) : Option Int :=
  let ds := cs.takeWhile isDigitC
  if ds.isEmpty then none else some (intOfSign neg (foldDec ds))

/-- `parseInt` after the optional sign: a `0x`/`0X` prefix switches to
hexadecimal, otherwise the decimal prefix is taken. -/
def parseSansSign (neg : Bool) (cs : List Char) : Option Int :=
  match cs with
  | '0' :: c :: rest =>
    if c = 'x' ∨ c = 'X' then
      let hs := rest.takeWhile isHexDigitC
      if hs.isEmpty then none else some (intOfSign neg (foldHex hs))
    else parseDec neg cs
  | _ => parseDec neg cs

/-- JavaScript `parseInt(s)` (radix argument omitted): skip leading
whitespace, take an optional sign, then a hexadecimal (`0x`) or decimal
digit prefix; `none` models NaN. -/
def parseIntJS (s : String) : Option Int :=
  match s.data.dropWhile jsWhitespace with
  | '-' :: rest => parseSansSign true rest
  | '+' :: rest => parseSansSign false rest
  | rest => parseSansSign false rest

/-! ## Capability-token codec (worker.js lines 406-425) -/

/-- `generateSignedUrl(videoId, secretKey, expiresIn)`:
`expires = Math.floor(Date.now() + expiresIn * 1000)` (the floor is a
no-op on integral times), `signature = btoa(videoId + ":" + expires +
secretKey).slice(0, 32)`.  Returns `none` when `btoa` throws (some code
point above 255), in which case the worker's surrounding handler fails
and no token is issued. -/
def generateSignedUrl (videoId secretKey : String) (now expiresIn : Nat) :
    Option (String × String) :=
  let expires := now + expiresIn * 1000
  let data := videoId ++ ":" ++ natRepr expires
  (btoa (data ++ secretKey)).map (fun enc => (enc.take 32, natRepr expires))

/-- `verifySignedUrl(videoId, signature, expires, secretKey)`:
`parseInt(expires)`; false on NaN or `Date.now() > expires`; otherwise
recompute `btoa(videoId + ":" + expires + secretKey).slice(0, 32)` and
compare for exact equality.  The function's `try`/`catch` turns a
`btoa` throw into `false`; the Lean model is total. -/
def verifySignedUrl (videoId signature expires secretKey : String) (now : Nat) : Bool :=
  match parseIntJS expires with
  | none => false
  | some expiresNum =>
    if (now : Int) > expiresNum then false
    else
      let data := videoId ++ ":" ++ expires
      match btoa (data ++ secretKey) with
      | none => false
      | some enc => signature == enc.take 32

example : btoa "v:5s" = some "djo1cw==" := by decide

example : natRepr 1000 = "1000" := by decide

example : parseIntJS " -42x" = some (-42) := by decide

example : parseIntJS "0x1A" = some 26 := by decide

example : parseIntJS "zzz" = none := by decide

example :
    (generateSignedUrl "v" "s" 0 1).map (fun t => verifySignedUrl "v" t.1 t.2 "s" 900) =
      some true := by decide

/-! ## The key-value store (`env.VIDEOS`)

The worker stores JSON strings under the keys `"video:" ++ id` (a
serialized record) and `"video:list"` (a serialized array of ids).
`StoreVal` is the typed view of the parsed JSON; the two constructors
correspond to the two shapes the worker ever writes.  Note that the two
key families alias when `id = "list"`. -/

/-- A video metadata record, with the fields `worker.js` reads and
writes (`handleUpload` builds exactly these; `handleSaveMetadata`
accepts them pre-built). -/
structure VideoRecord where
  id : String
  title : String
  description : String
  fileId : String
  fileUniqueId : String
  duration : Nat
  width : Nat
  height : Nat
  fileSize : Nat
  mimeType : String
  messageId : Nat
  uploadDate : String
  views : Nat
deriving DecidableEq

/-- The parsed shape of a stored JSON value. -/
inductive StoreVal where
  | record (r : VideoRecord)
  | ids (l : List String)
deriving DecidableEq

/-- The key-value store: an association list keyed by the actual key
strings the worker uses. -/
abbrev KV := List (String × StoreVal)

/-- `env.VIDEOS.get(k)` (returning the parsed value, `none` for a
missing key — the JS null). -/
def kvGet (kv : KV) (k : String) : Option StoreVal :=
  (List.find? (fun p => p.1 == k) kv).map (fun p => p.2)

/-- `env.VIDEOS.delete(k)`. -/
def kvDelete (kv : KV) (k : String) : KV :=
  List.filter (fun p => p.1 != k) kv

/-- `env.VIDEOS.put(k, v)` (overwrite). -/
def kvPut (kv : KV) (k : String) (v : StoreVal) : KV :=
  (k, v) :: kvDelete kv k

/-- `getVideoList(env)` reads `video:list` and JSON-parses it, with
`[]` for a missing key.  When the stored value is a record object
rather than an array the parse still succeeds in JS; the array-specific
operations of each caller then throw, so callers receive the raw
`StoreVal` here and handle that case themselves. -/
def getVideoListVal (kv : KV) : Option StoreVal := kvGet kv "video:list"

/-- The typed read of a record (`env.VIDEOS.get('video:' + id)`
followed by `JSON.parse`, yielding a usable record only when a record
is what is stored there). -/
def getRecord (kv : KV) (id : String) : Option VideoRecord :=
  match kvGet kv ("video:" ++ id) with
  | some (StoreVal.record r) => some r
  | _ => none

/-- The stored index as a list of ids (empty when absent or when the
key holds a non-array value). -/
def indexIds (kv : KV) : List String :=
  match kvGet kv "video:list" with
  | some (StoreVal.ids l) => l
  | _ => []

/-! ## `handleSaveMetadata` (worker.js lines 142-166) -/

/-- `handleSaveMetadata`: reject a falsy `metadata.id` (400), write the
record at `video:` + id, then read-modify-write the index with
`unshift` (prepend).  `none` covers the error responses: the 400, a
thrown store failure, and the `unshift` `TypeError` raised when
`video:list` holds a non-array (possible only after the record write
just aliased it, i.e. `id = "list"`). -/
def handleSaveMetadata (kv : KV) (metadata : VideoRecord) : Option KV :=
  if metadata.id = "" then none
  else
    let kv1 := kvPut kv ("video:" ++ metadata.id) (StoreVal.record metadata)
    match kvGet kv1 "video:list" with
    | some (StoreVal.record _) => none
    | some (StoreVal.ids l) => some (kvPut kv1 "video:list" (StoreVal.ids (metadata.id :: l)))
    | none => some (kvPut kv1 "video:list" (StoreVal.ids [metadata.id]))

/-! ## `handleDelete` (worker.js lines 358-393) -/

/-- `handleDelete`: 404 (`none`) when the key is absent; otherwise the
worker calls the chat platform's `deleteMessage` (response ignored),
deletes the record key, and rewrites the index with
`filter(id => id !== videoId)`.  The non-array `filter` `TypeError`
(index key holding a record) is the remaining `none` case. -/
def handleDelete (kv : KV) (videoId : String) : Option KV :=
  match kvGet kv ("video:" ++ videoId) with
  | none => none
  | some _ =>
    let kv1 := kvDelete kv ("video:" ++ videoId)
    match kvGet kv1 "video:list" with
    | some (StoreVal.record _) => none
    | some (StoreVal.ids l) =>
      some (kvPut kv1 "video:list" (StoreVal.ids (List.filter (fun i => i != videoId) l)))
    | none => some (kvPut kv1 "video:list" (StoreVal.ids []))

/-! ## `handleGetVideos` (worker.js lines 168-193) -/

/-- The projection pushed for each listed video. -/
structure VideoSummary where
  id : String
  title : String
  description : String
  duration : Nat
  views : Nat
  uploadDate : String
  fileSize : Nat
deriving DecidableEq

/-- The seven fields `handleGetVideos` projects out of a record. -/
def summarize (r : VideoRecord) : VideoSummary :=
  { id := r.id, title := r.title, description := r.description, duration := r.duration,
    views := r.views, uploadDate := r.uploadDate, fileSize := r.fileSize }

/-- One pushed catalog entry.  When the value stored at a listed id is
an array rather than a record (the `video:list` aliasing case) the JS
`JSON.parse` still succeeds and an object of `undefined` fields is
pushed; `nonRecord` keeps that case distinct. -/
inductive CatalogEntry where
  | vid (s : VideoSummary)
  | nonRecord (l : List String)
deriving DecidableEq

/-- The entry pushed for a present store value. -/
def storedEntry : StoreVal → CatalogEntry
  | StoreVal.record r => CatalogEntry.vid (summarize r)
  | StoreVal.ids l => CatalogEntry.nonRecord l

/-- The `for (const videoId of videoList)` loop: look each id up and
push a projection when the key is present (`if (metadataStr)`). -/
def collectVideos (kv : KV) : List String → List CatalogEntry
  | [] => []
  | id :: rest =>
    match kvGet kv ("video:" ++ id) with
    | some v => storedEntry v :: collectVideos kv rest
    | none => collectVideos kv rest

/-- `handleGetVideos`: read the index, loop over it collecting present
records, and answer the collected list.  The handler performs no store
write.  `none` models the 500 produced when `video:list` holds a
non-iterable (a record object), on which `for`…`of` throws. -/
def handleGetVideos (kv : KV) : Option (List CatalogEntry) :=
  match getVideoListVal kv with
  | some (StoreVal.record _) => none
  | some (StoreVal.ids l) => some (collectVideos kv l)
  | none => some (collectVideos kv [])

example :
    handleGetVideos [("video:list", StoreVal.ids ["a", "b"]),
      ("video:b", StoreVal.ids ["x"])] =
      some [CatalogEntry.nonRecord ["x"]] := by decide

/-! ## `handleStream` (worker.js lines 228-356) -/

/-- An upstream HTTP response, as much of it as the worker inspects:
status, the two copied headers, and the (opaque) body. -/
structure UpstreamResp where
  status : Nat
  contentRange : Option String
  contentLength : Option String
  body : String
deriving DecidableEq

/-- `Response.ok`: status in the 2xx range. -/
def respOk (r : UpstreamResp) : Bool := 200 ≤ r.status && r.status ≤ 299

/-- The headers the worker builds for a relayed stream (both delivery
paths build exactly this set). -/
structure StreamHeaders where
  contentType : String
  acceptRanges : String
  cacheControl : String
  contentRange : Option String
  contentLength : Option String
deriving DecidableEq

/-- Build the relay headers from an upstream response: forced
`Content-Type: video/mp4`, `Accept-Ranges: bytes` and a cache
directive, plus `Content-Range` / `Content-Length` copied verbatim when
the upstream supplied them. -/
def relayHeaders (u : UpstreamResp) : StreamHeaders :=
  { contentType := "video/mp4", acceptRanges := "bytes",
    cacheControl := "public, max-age=3600",
    contentRange := u.contentRange, contentLength := u.contentLength }

/-- The worker's answer to a stream request: either a JSON error
envelope (status and `error` string; further diagnostic fields of the
envelope are elided) or a relayed byte stream. -/
inductive StreamResult where
  | json (status : Nat) (error : String)
  | stream (status : Nat) (headers : StreamHeaders) (body : String)
deriving DecidableEq

/-- Status of either result shape. -/
def StreamResult.statusOf : StreamResult → Nat
  | StreamResult.json s _ => s
  | StreamResult.stream s _ _ => s

/-- `request.headers.get('Range') || 'bytes=0-'`: the client's `Range`
header forwarded upstream, with the default when the header is absent
(`null`) or empty (both falsy under `||`). -/
def forwardedRange : Option String → String
  | none => "bytes=0-"
  | some r => if r = "" then "bytes=0-" else r

/-- The `metadata.fileSize > 20 * 1024 * 1024` test (worker.js line
248). -/
def isLargeFile (sizeBytes : Nat) : Bool := sizeBytes > 20 * 1024 * 1024

/-- `fileSize` of a parsed stored value.  When the stored JSON was an
array (the aliasing case) `metadata.fileSize` is `undefined` and the
`>` comparison is false, which coincides with size `0`. -/
def storedFileSize : StoreVal → Nat
  | StoreVal.record r => r.fileSize
  | StoreVal.ids _ => 0

/-- The large-file branch (worker.js lines 251-303): proxy to the
MTProto relay; a non-2xx upstream answers a 500 JSON envelope (its
`status` diagnostic field elided), otherwise the body is relayed with
the upstream status passed through unchanged. -/
def streamLarge (resp : UpstreamResp) : StreamResult :=
  if respOk resp then
    StreamResult.stream resp.status (relayHeaders resp) resp.body
  else
    StreamResult.json 500 "Failed to stream from MTProto service"

/-- The small-file branch (worker.js lines 305-350): resolve the file
handle via `getFile` (`getFileOk` is that call's `result.ok`; on
failure a 500 JSON envelope), then fetch the direct URL; the relayed
status is 206 exactly when the upstream answered a `Content-Range`
header, else 200 — the upstream's own status is not consulted. -/
def streamSmall (getFileOk : Bool) (resp : UpstreamResp) : StreamResult :=
  if getFileOk then
    StreamResult.stream (if resp.contentRange.isSome then 206 else 200)
      (relayHeaders resp) resp.body
  else
    StreamResult.json 500 "Failed to get file from Telegram"

/-- Everything a stream request's handler consults besides the token
fields: the secret, the clock, the store, whether the view-count
`put` resolves (`putViewsOk`; on rejection the awaited `put` throws and
the top-level `catch` answers 500 with the store error's message,
`putErrMsg`), whether `getFile` succeeds, and the two upstream origins
as oracles from the forwarded `Range` header to their response. -/
structure StreamEnv where
  secretKey : String
  now : Nat
  kv : KV
  putViewsOk : Bool
  putErrMsg : String
  getFileOk : Bool
  botFetch : String → UpstreamResp
  mtFetch : String → UpstreamResp

/-- `handleStream`: verify the token (403 on failure), look the record
up (404 when absent), increment-and-persist the view counter (a store
rejection propagates to the `catch` → 500), then dispatch on
`fileSize > 20 MiB` to the large or small delivery branch, forwarding
the client's `Range` header.  The successful view-count write changes
only the `views` field of the stored record; the returned value is the
HTTP response, which never depends on that write. -/
def handleStream (env : StreamEnv) (videoId signature expires : String)
    (clientRange : Option String) : StreamResult :=
  if verifySignedUrl videoId signature expires env.secretKey env.now then
    match kvGet env.kv ("video:" ++ videoId) with
    | none => StreamResult.json 404 "Video not found"
    | some sv =>
      if env.putViewsOk then
        let range := forwardedRange clientRange
        if isLargeFile (storedFileSize sv) then
          streamLarge (env.mtFetch range)
        else
          streamSmall env.getFileOk (env.botFetch range)
      else
        StreamResult.json 500 env.putErrMsg

  else
    StreamResult.json 403 "Invalid or expired signature"

/-! ## Supporting lemmas: decimal printing and `parseInt` -/

theorem digitChar_toNat (d : Nat) (h : d < 10) : (digitChar d).toNat = 48 + d := by
  interval_cases d <;> decide

theorem isDigitC_digitChar (d : Nat) (h : d < 10) : isDigitC (digitChar d) = true := by
  simp only [isDigitC, digitChar_toNat d h, Bool.and_eq_true, decide_eq_true_eq]
  omega

theorem isDigitC_toNat {c : Char} (h : isDigitC c = true) :
    48 ≤ c.toNat ∧ c.toNat ≤ 57 := by
  simpa only [isDigitC, Bool.and_eq_true, decide_eq_true_eq] using h

theorem jsWhitespace_of_digit {c : Char} (h : isDigitC c = true) :
    jsWhitespace c = false := by
  have hb := isDigitC_toNat h
  simp only [jsWhitespace, Bool.or_eq_false_iff, decide_eq_false_iff_not]
  omega

theorem natDigitsAux_spec :
    ∀ fuel n, n < fuel →
      natDigitsAux fuel n ≠ [] ∧ (∀ c ∈ natDigitsAux fuel n, isDigitC c = true) ∧
        foldDec (natDigitsAux fuel n) = n := by
  intro fuel
  induction fuel with
  | zero => intro n h; omega
  | succ f ih =>
    intro n h
    by_cases h10 : n < 10
    · refine ⟨by simp [natDigitsAux, h10], ?_, ?_⟩
      · intro c hc
        simp only [natDigitsAux, if_pos h10, List.mem_singleton] at hc
        exact hc ▸ isDigitC_digitChar n h10
      · simp only [natDigitsAux, if_pos h10, foldDec, List.foldl_cons, List.foldl_nil]
        rw [digitChar_toNat n h10]
        omega
    · have hdiv : n / 10 < f := by omega
      obtain ⟨hne, hall, hval⟩ := ih (n / 10) hdiv
      have heq : natDigitsAux (f + 1) n =
          natDigitsAux f (n / 10) ++ [digitChar (n % 10)] := by
        simp [natDigitsAux, h10]
      refine ⟨by simp [heq], ?_, ?_⟩
      · intro c hc
        rw [heq, List.mem_append, List.mem_singleton] at hc
        rcases hc with hc | hc
        · exact hall c hc
        · exact hc ▸ isDigitC_digitChar (n % 10) (Nat.mod_lt n (by omega))
      · rw [heq]
        unfold foldDec
        rw [List.foldl_append]
        simp only [List.foldl_cons, List.foldl_nil]
        rw [digitChar_toNat (n % 10) (Nat.mod_lt n (by omega))]
        unfold foldDec at hval
        rw [hval]
        omega

theorem takeWhile_all {p : Char → Bool} :
    ∀ l : List Char, (∀ c ∈ l, p c = true) → l.takeWhile p = l := by
  intro l
  induction l with
  | nil => intro _; rfl
  | cons c rest ih =>
    intro h
    rw [List.takeWhile_cons, h c (List.mem_cons_self c rest)]
    rw [ih (fun x hx => h x (List.mem_cons_of_mem c hx))]
    simp

theorem parseIntJS_digits (cs : List Char) (hne : cs ≠ [])
    (hdig : ∀ c ∈ cs, isDigitC c = true) :
    parseIntJS (String.mk cs) = some ((foldDec cs : Nat) : Int) := by
  cases cs with
  | nil => exact absurd rfl hne
  | cons c rest =>
    have hc : isDigitC c = true := hdig c (List.mem_cons_self c rest)
    have hcb := isDigitC_toNat hc
    have hdrop : List.dropWhile jsWhitespace (c :: rest) = c :: rest := by
      rw [List.dropWhile_cons, jsWhitespace_of_digit hc]
      simp
    have hdec : parseDec false (c :: rest) = some ((foldDec (c :: rest) : Nat) : Int) := by
      unfold parseDec
      rw [takeWhile_all (c :: rest) hdig]
      simp [intOfSign]
    have hsans : parseSansSign false (c :: rest) = some ((foldDec (c :: rest) : Nat) : Int) := by
      unfold parseSansSign
      split
      · rename_i c2 rest2 heq
        rw [List.cons.injEq] at heq
        obtain ⟨hc0, hrest⟩ := heq
        have hc2 : isDigitC c2 = true := by
          apply hdig
          rw [hrest]
          simp
        have hc2b := isDigitC_toNat hc2
        have hxv : Char.toNat 'x' = 120 := rfl
        have hXv : Char.toNat 'X' = 88 := rfl
        have hx : ¬(c2 = 'x' ∨ c2 = 'X') := by
          rintro (hx | hx) <;> (have h2 := congrArg Char.toNat hx; omega)
        rw [if_neg hx]
        exact hdec
      · exact hdec
    show parseIntJS (String.mk (c :: rest)) = _
    unfold parseIntJS
    have hdata : (String.mk (c :: rest)).data = c :: rest := rfl
    rw [hdata, hdrop]
    have hmv : Char.toNat '-' = 45 := rfl
    have hpv : Char.toNat '+' = 43 := rfl
    split
    · rename_i heq
      rw [List.cons.injEq] at heq
      have h2 := congrArg Char.toNat heq.1
      omega
    · rename_i heq
      rw [List.cons.injEq] at heq
      have h2 := congrArg Char.toNat heq.1
      omega
    · exact hsans

theorem parseIntJS_natRepr (n : Nat) : parseIntJS (natRepr n) = some (n : Int) := by
  obtain ⟨hne, hall, hval⟩ := natDigitsAux_spec (n + 1) n (Nat.lt_succ_self n)
  unfold natRepr
  rw [parseIntJS_digits _ hne hall, hval]

/-! ## Supporting lemmas: the key-value map -/

theorem kvGet_put_self (kv : KV) (k : String) (v : StoreVal) :
    kvGet (kvPut kv k v) k = some v := by
  simp [kvGet, kvPut, List.find?]

theorem kvGet_delete_self (kv : KV) (k : String) :
    kvGet (kvDelete kv k) k = none := by
  induction kv with
  | nil => rfl
  | cons p rest ih =>
    show kvGet (List.filter (fun q => q.1 != k) (p :: rest)) k = none
    rw [List.filter_cons]
    by_cases hp : p.1 = k
    · simp only [hp, bne_self_eq_false, Bool.false_eq_true, if_false]
      exact ih
    · rw [if_pos (by simpa using hp)]
      unfold kvGet
      rw [List.find?_cons_of_neg _ (by simpa using hp)]
      exact ih

theorem kvGet_delete_ne (kv : KV) (k k' : String) (h : k' ≠ k) :
    kvGet (kvDelete kv k) k' = kvGet kv k' := by
  induction kv with
  | nil => rfl
  | cons p rest ih =>
    show kvGet (List.filter (fun q => q.1 != k) (p :: rest)) k' = kvGet (p :: rest) k'
    rw [List.filter_cons]
    by_cases hp : p.1 = k
    · have hp' : ¬((fun q : String × StoreVal => q.1 == k') p = true) := by
        simp only [beq_iff_eq, hp]
        exact fun hh => h hh.symm
      simp only [hp, bne_self_eq_false, Bool.false_eq_true, if_false]
      show kvGet (kvDelete rest k) k' = kvGet (p :: rest) k'
      rw [ih]
      unfold kvGet
      rw [@List.find?_cons_of_neg _ (fun q : String × StoreVal => q.1 == k') p rest hp']
    · rw [if_pos (by simpa using hp)]
      by_cases hq : p.1 = k'
      · unfold kvGet
        rw [List.find?_cons_of_pos _ (by simpa using hq),
          List.find?_cons_of_pos _ (by simpa using hq)]
      · unfold kvGet
        rw [List.find?_cons_of_neg _ (by simpa using hq),
          List.find?_cons_of_neg _ (by simpa using hq)]
        exact ih

theorem kvGet_put_ne (kv : KV) (k k' : String) (v : StoreVal) (h : k' ≠ k) :
    kvGet (kvPut kv k v) k' = kvGet kv k' := by
  have hne : ¬((fun q : String × StoreVal => q.1 == k') (k, v) = true) := by
    simp only [beq_iff_eq]
    exact fun hh => h hh.symm
  show kvGet (((k, v) :: kvDelete kv k : List (String × StoreVal)) : KV) k' = kvGet kv k'
  unfold kvGet
  rw [@List.find?_cons_of_neg _ (fun q : String × StoreVal => q.1 == k') (k, v)
    (kvDelete kv k) hne]
  exact kvGet_delete_ne kv k k' h

theorem videoKey_inj {a b : String} (h : "video:" ++ a = "video:" ++ b) : a = b := by
  have hd := congrArg String.data h
  simp only [String.data_append] at hd
  exact String.ext (List.append_cancel_left hd)

/-! ## Supporting lemmas: the token codec -/

theorem generateSignedUrl_inv {videoId secretKey : String} {now expiresIn : Nat}
    {sig expStr : String}
    (h : generateSignedUrl videoId secretKey now expiresIn = some (sig, expStr)) :
    expStr = natRepr (now + expiresIn * 1000) ∧
      ∃ enc, btoa ((videoId ++ ":" ++ expStr) ++ secretKey) = some enc ∧
        sig = enc.take 32 := by
  simp only [generateSignedUrl] at h
  cases hb : btoa ((videoId ++ ":" ++ natRepr (now + expiresIn * 1000)) ++ secretKey) with
  | none => rw [hb] at h; exact absurd h (by simp)
  | some enc =>
    rw [hb] at h
    simp only [Option.map_some', Option.some.injEq, Prod.mk.injEq] at h
    obtain ⟨hsig, hexp⟩ := h
    subst hexp
    exact ⟨rfl, enc, hb, hsig.symm⟩

/-- When `parseInt` succeeds, `verifySignedUrl` reduces to the expiry
test followed by the recomputed-signature comparison. -/
theorem verifySignedUrl_parsed {videoId signature expires secretKey : String}
    {now : Nat} {e : Int} (hp : parseIntJS expires = some e) :
    verifySignedUrl videoId signature expires secretKey now =
      (if (now : Int) > e then false
       else
         match btoa (videoId ++ ":" ++ expires ++ secretKey) with
         | none => false
         | some enc => signature == enc.take 32) := by
  unfold verifySignedUrl
  rw [hp]

/-- For a minted token, verification of the minted `expires` string with
an arbitrary candidate signature reduces to the expiry test followed by
comparison with the minted signature. -/
theorem verify_of_minted {videoId secretKey : String} {now expiresIn : Nat}
    {sig expStr : String}
    (h : generateSignedUrl videoId secretKey now expiresIn = some (sig, expStr))
    (sig' : String) (now' : Nat) :
    verifySignedUrl videoId sig' expStr secretKey now' =
      (if (now' : Int) > ((now + expiresIn * 1000 : Nat) : Int) then false
       else sig' == sig) := by
  obtain ⟨hexp, enc, hb, hsig⟩ := generateSignedUrl_inv h
  rw [verifySignedUrl_parsed (hexp ▸ parseIntJS_natRepr (now + expiresIn * 1000))]
  by_cases hlt : ((now' : Int) > ((now + expiresIn * 1000 : Nat) : Int))
  · rw [if_pos hlt, if_pos hlt]
  · rw [if_neg hlt, if_neg hlt, hb, hsig]

/-- An authorized stream request (valid token, present record,
successful view-count write) reduces to the size-dispatched delivery
branch applied to the forwarded range. -/
theorem handleStream_authorized (env : StreamEnv) (videoId sig expStr : String)
    (clientRange : Option String) (sv : StoreVal)
    (hver : verifySignedUrl videoId sig expStr env.secretKey env.now = true)
    (hrec : kvGet env.kv ("video:" ++ videoId) = some sv)
    (hput : env.putViewsOk = true) :
    handleStream env videoId sig expStr clientRange =
      (if isLargeFile (storedFileSize sv) then
        streamLarge (env.mtFetch (forwardedRange clientRange))
      else
        streamSmall env.getFileOk (env.botFetch (forwardedRange clientRange))) := by
  unfold handleStream
  rw [hver, if_pos rfl, hrec]
  dsimp only
  rw [hput, if_pos rfl]

/-! ## Concrete fixtures for witnesses and counterexamples -/

/-- A small record used by concrete scenarios. -/
def rSmall : VideoRecord :=
  { id := "abc", title := "t", description := "d", fileId := "f", fileUniqueId := "fu",
    duration := 10, width := 640, height := 360, fileSize := 1000,
    mimeType := "video/mp4", messageId := 5, uploadDate := "2024-01-01", views := 0 }

/-- The small record stored under id `v`. -/
def rV : VideoRecord := { rSmall with id := "v" }

/-- A record over the 20 MiB threshold, stored under id `v`. -/
def rLargeV : VideoRecord := { rSmall with id := "v", fileSize := 30 * 1024 * 1024 }

/-- A record exactly at the 20 MiB threshold, stored under id `v`. -/
def rThr : VideoRecord := { rSmall with id := "v", fileSize := 20 * 1024 * 1024 }

/-- A record one byte over the 20 MiB threshold, stored under id `v`. -/
def rThrP : VideoRecord := { rSmall with id := "v", fileSize := 20 * 1024 * 1024 + 1 }

/-- Records used by the index-consistency scenarios. -/
def rA : VideoRecord := { rSmall with id := "a" }

/-- Second record for the listing scenario. -/
def rB : VideoRecord := { rSmall with id := "b", views := 7 }

/-- The token minted for video id `v` with secret `s` at time 0, ttl 1 s
(so `expires = "1000"`). -/
def tok0 : String × String := (generateSignedUrl "v" "s" 0 1).getD ("", "")

/-- A 206 upstream response carrying a `Content-Range`. -/
def up206 : UpstreamResp :=
  { status := 206, contentRange := some "bytes 0-4/10", contentLength := some "5",
    body := "AAAAA" }

/-- A plain 200 full-body upstream response. -/
def upB : UpstreamResp :=
  { status := 200, contentRange := none, contentLength := some "10", body := "BBBBBBBBBB" }

/-- A 2xx full-body upstream response whose status is not 200. -/
def up203 : UpstreamResp :=
  { status := 203, contentRange := none, contentLength := some "4", body := "BODY" }

/-- An upstream response with a `Content-Range` but status 200. -/
def upCR200 : UpstreamResp :=
  { status := 200, contentRange := some "bytes 0-3/8", contentLength := some "4",
    body := "BODY" }

/-- Baseline stream environment: secret `s`, clock 0, small record at
`video:v`, all store and upstream calls succeeding. -/
def envSmallOk : StreamEnv :=
  { secretKey := "s", now := 0, kv := [("video:v", StoreVal.record rV)],
    putViewsOk := true, putErrMsg := "kv put rejected", getFileOk := true,
    botFetch := fun _ => upB, mtFetch := fun _ => up206 }

/-- Environment with an empty store (no record at all). -/
def envNoKv : StreamEnv := { envSmallOk with kv := [] }

/-- Environment whose view-count `put` rejects. -/
def envPutFail : StreamEnv := { envSmallOk with putViewsOk := false }

/-- Environment with the record exactly at the threshold. -/
def envThr : StreamEnv := { envSmallOk with kv := [("video:v", StoreVal.record rThr)] }

/-- Environment with the record one byte over the threshold. -/
def envThrP : StreamEnv := { envSmallOk with kv := [("video:v", StoreVal.record rThrP)] }

/-- Environment with a large record whose relay answers a full-body 203. -/
def envLarge203 : StreamEnv :=
  { envSmallOk with
    kv := [("video:v", StoreVal.record rLargeV)]
    mtFetch := fun _ => up203 }

/-- Environment with a large record whose relay answers a 206. -/
def envLarge206 : StreamEnv := { envLarge203 with mtFetch := fun _ => up206 }

/-- Environment whose small-file origin answers status 200 together with
a `Content-Range` header. -/
def envSmallCR : StreamEnv := { envSmallOk with botFetch := fun _ => upCR200 }

/-- Environment whose small-file origin echoes the `Range` header it was
sent inside its `Content-Range` answer. -/
def envEcho : StreamEnv :=
  { envSmallOk with
    botFetch := fun r =>
      { status := 200, contentRange := some ("echo " ++ r), contentLength := some "100",
        body := "b" } }

/-- A store whose index already lists `a` and holds its record. -/
def kvDup : KV := [("video:list", StoreVal.ids ["a"]), ("video:a", StoreVal.record rA)]

/-- The store left by deleting `a` from `kvDup`. -/
def kvDel : KV := [("video:list", StoreVal.ids [])]

/-- A store whose index lists a dangling id `gone` between two live
records. -/
def kvListing : KV :=
  [("video:list", StoreVal.ids ["a", "gone", "b"]),
   ("video:a", StoreVal.record rA), ("video:b", StoreVal.record rB)]

/-! ## Claims -/

/-- C4: for every videoId, secret and ttl > 0, verifying the token
produced by `generateSignedUrl(videoId, secret, ttl)` — same videoId and
secret, the returned signature and expires string — returns true when
evaluated at the unchanged minting time. -/
theorem token_roundtrip (videoId secretKey : String) (now ttl : Nat) (httl : 0 < ttl)
    (sig expStr : String)
    (h : generateSignedUrl videoId secretKey now ttl = some (sig, expStr)) :
    verifySignedUrl videoId sig expStr secretKey now = true := by
  rw [verify_of_minted h sig now]
  have hle : ¬((now : Int) > ((now + ttl * 1000 : Nat) : Int)) := by
    push_cast
    omega
  rw [if_neg hle]
  simp

/-- C4 witness: the concrete token `tok0` minted for `("v", "s")` at
time 0 with ttl 1 verifies at time 0. -/
theorem token_roundtrip_witness :
    0 < 1 ∧ generateSignedUrl "v" "s" 0 1 = some (tok0.1, tok0.2) ∧
      verifySignedUrl "v" tok0.1 tok0.2 "s" 0 = true :=
  ⟨by decide, by decide, token_roundtrip "v" "s" 0 1 (by decide) tok0.1 tok0.2 (by decide)⟩

/-- C5: `verifySignedUrl` returns false when `parseInt(expires)` is NaN
and when `now > expires`; at the boundary `now = expires` a minted token
still verifies (equal time is non-expired — the check only fails on
strictly greater).  The function is total by construction, modelling
that `verifySignedUrl` never throws (its `try`/`catch` converts any
exception into `false`). -/
theorem verify_expiry_behavior :
    (∀ videoId sig expStr secretKey : String, ∀ now : Nat,
      parseIntJS expStr = none →
        verifySignedUrl videoId sig expStr secretKey now = false) ∧
    (∀ videoId sig expStr secretKey : String, ∀ now : Nat, ∀ e : Int,
      parseIntJS expStr = some e → (now : Int) > e →
        verifySignedUrl videoId sig expStr secretKey now = false) ∧
    (∀ videoId secretKey : String, ∀ now ttl : Nat, ∀ sig expStr : String,
      generateSignedUrl videoId secretKey now ttl = some (sig, expStr) →
        verifySignedUrl videoId sig expStr secretKey (now + ttl * 1000) = true) := by
  refine ⟨?_, ?_, ?_⟩
  · intro videoId sig expStr secretKey now h
    unfold verifySignedUrl
    rw [h]
  · intro videoId sig expStr secretKey now e h1 h2
    rw [verifySignedUrl_parsed h1, if_pos h2]
  · intro videoId secretKey now ttl sig expStr h
    rw [verify_of_minted h sig (now + ttl * 1000)]
    rw [if_neg (by omega)]
    simp

/-- C5 witness: a non-numeric expires fails, an expired token fails,
and the minted token `tok0` verifies exactly at its expiry instant
(time 1000). -/
theorem verify_expiry_behavior_witness :
    verifySignedUrl "v" "x" "zz" "s" 0 = false ∧
      verifySignedUrl "v" "x" "5" "s" 6 = false ∧
      verifySignedUrl "v" tok0.1 tok0.2 "s" 1000 = true :=
  ⟨verify_expiry_behavior.1 "v" "x" "zz" "s" 0 (by decide),
   verify_expiry_behavior.2.1 "v" "x" "5" "s" 6 5 (by decide) (by decide),
   verify_expiry_behavior.2.2 "v" "s" 0 1 tok0.1 tok0.2 (by decide)⟩

/-- C1 counterexample: for the 32-hex-character video ids this system
generates, flipping the final character of `expiresAtMillis` (from
…`0` to …`1`, a single-character flip, as the last two conjuncts
verify) leaves `verifySignedUrl` returning true: the signature is
`btoa(...)` truncated to 32 base64 characters and therefore depends
only on the first 24 bytes of `videoId + ":" + expires + secret`, which
a flip inside the expiry string never reaches.  So the claim that any
single-character flip of `videoId` or `expiresAtMillis` is detected
(with overwhelming probability) is false on this code. -/
theorem token_tamper_counterexample :
    (generateSignedUrl "0123456789abcdef0123456789abcdef" "s3cret" 1700000000000 86400).map
        (fun t => t.2) = some "1700086400000" ∧
    (generateSignedUrl "0123456789abcdef0123456789abcdef" "s3cret" 1700000000000 86400).map
        (fun t => verifySignedUrl "0123456789abcdef0123456789abcdef" t.1 "1700086400001"
          "s3cret" 1700000000000) = some true ∧
    List.length "1700086400001".data = List.length "1700086400000".data ∧
    List.count true
      (List.zipWith (fun a b => a != b) "1700086400001".data "1700086400000".data) = 1 := by
  refine ⟨by decide, by decide, by decide, by decide⟩

/-- C1 (amended): any change to the signature — in particular flipping
any single character of it — causes `verifySignedUrl` to return false
at every evaluation time; flips of `videoId` or `expiresAtMillis` are
NOT guaranteed to be detected, because the 32-character truncated
signature covers only the first 24 bytes of the signed data (see the
counterexample). -/
theorem token_signature_tamper_detected (videoId secretKey : String) (now ttl : Nat)
    (sig expStr sig' : String)
    (h : generateSignedUrl videoId secretKey now ttl = some (sig, expStr))
    (hne : sig' ≠ sig) (now' : Nat) :
    verifySignedUrl videoId sig' expStr secretKey now' = false := by
  rw [verify_of_minted h sig' now']
  by_cases hlt : ((now' : Int) > ((now + ttl * 1000 : Nat) : Int))
  · rw [if_pos hlt]
  · rw [if_neg hlt]
    exact beq_eq_false_iff_ne.mpr hne

/-- C1 witness: replacing the first character of `tok0`'s signature
with `X` makes verification fail at the minting time. -/
theorem token_signature_tamper_detected_witness :
    generateSignedUrl "v" "s" 0 1 = some (tok0.1, tok0.2) ∧
      ("X" ++ tok0.1.drop 1) ≠ tok0.1 ∧
      verifySignedUrl "v" ("X" ++ tok0.1.drop 1) tok0.2 "s" 0 = false :=
  ⟨by decide, by decide,
    token_signature_tamper_detected "v" "s" 0 1 tok0.1 tok0.2 ("X" ++ tok0.1.drop 1)
      (by decide) (by decide) 0⟩

/-- C9: token verification precedes the record lookup — every stream
request whose token fails verification is answered 403, for every store
state (in particular for a nonexistent id, where the answer is still
403 and never 404). -/
theorem invalid_token_yields_403 (env : StreamEnv) (videoId sig expStr : String)
    (clientRange : Option String)
    (h : verifySignedUrl videoId sig expStr env.secretKey env.now = false) :
    handleStream env videoId sig expStr clientRange =
      StreamResult.json 403 "Invalid or expired signature" := by
  unfold handleStream
  rw [h]
  simp

/-- C9 witness: a bad signature for an id with no record in an empty
store is answered 403 (not 404). -/
theorem invalid_token_yields_403_witness :
    verifySignedUrl "nope" "bad" "123" "s" 0 = false ∧
      handleStream envNoKv "nope" "bad" "123" none =
        StreamResult.json 403 "Invalid or expired signature" :=
  ⟨by decide, invalid_token_yields_403 envNoKv "nope" "bad" "123" none (by decide)⟩

/-- C2 counterexample: with a valid token (`tok0`) and the record
present at `video:v`, a rejecting view-count `put` makes the request
fail with the 500 JSON envelope — the byte stream is NOT returned, so
the claim that a persist failure does not fail the stream is false on
this code: the `await env.VIDEOS.put(...)` sits inside the handler's
`try` and its rejection propagates to the `catch`. -/
theorem stream_put_failure_counterexample :
    verifySignedUrl "v" tok0.1 tok0.2 "s" 0 = true ∧
      (kvGet envPutFail.kv ("video:" ++ "v")).isSome = true ∧
      handleStream envPutFail "v" tok0.1 tok0.2 (some "bytes=0-99") =
        StreamResult.json 500 "kv put rejected" := by
  refine ⟨by decide, by decide, by decide⟩

/-- C2 (amended): after token verification and record lookup succeed, a
failure of the store write persisting the incremented view count DOES
fail the request: the handler answers a 500 JSON error response carrying
the store error's message, and no byte stream is returned. -/
theorem stream_put_failure_returns_500 (env : StreamEnv) (videoId sig expStr : String)
    (clientRange : Option String)
    (hver : verifySignedUrl videoId sig expStr env.secretKey env.now = true)
    (hrec : (kvGet env.kv ("video:" ++ videoId)).isSome = true)
    (hput : env.putViewsOk = false) :
    handleStream env videoId sig expStr clientRange =
      StreamResult.json 500 env.putErrMsg := by
  unfold handleStream
  rw [hver, if_pos rfl]
  cases hk : kvGet env.kv ("video:" ++ videoId) with
  | none => rw [hk] at hrec; simp at hrec
  | some sv =>
    dsimp only
    rw [hput]
    simp

/-- C2 witness: the amended behaviour at the concrete put-failing
environment. -/
theorem stream_put_failure_returns_500_witness :
    verifySignedUrl "v" tok0.1 tok0.2 "s" 0 = true ∧
      handleStream envPutFail "v" tok0.1 tok0.2 none =
        StreamResult.json 500 "kv put rejected" :=
  ⟨by decide,
    stream_put_failure_returns_500 envPutFail "v" tok0.1 tok0.2 none (by decide)
      (by decide) rfl⟩

/-- C6: the delivery strategy is selected by `fileSize > 20 MiB`, with
the threshold on the small side: an authorized request for a record of
exactly `20*1024*1024` bytes is served by the small-file (direct
origin) branch, and one byte more by the large-file relay branch. -/
theorem strategy_threshold (env : StreamEnv) (videoId sig expStr : String)
    (clientRange : Option String) (m : VideoRecord)
    (hver : verifySignedUrl videoId sig expStr env.secretKey env.now = true)
    (hrec : kvGet env.kv ("video:" ++ videoId) = some (StoreVal.record m))
    (hput : env.putViewsOk = true) :
    (m.fileSize = 20 * 1024 * 1024 →
      handleStream env videoId sig expStr clientRange =
        streamSmall env.getFileOk (env.botFetch (forwardedRange clientRange))) ∧
    (m.fileSize = 20 * 1024 * 1024 + 1 →
      handleStream env videoId sig expStr clientRange =
        streamLarge (env.mtFetch (forwardedRange clientRange))) := by
  rw [handleStream_authorized env videoId sig expStr clientRange _ hver hrec hput]
  constructor
  · intro hsz
    rw [show storedFileSize (StoreVal.record m) = m.fileSize from rfl, hsz]
    rw [if_neg (by decide)]
  · intro hsz
    rw [show storedFileSize (StoreVal.record m) = m.fileSize from rfl, hsz]
    rw [if_pos (by decide)]

/-- C6 witness: the two concrete environments at the threshold and one
byte over it take the small and large branch respectively. -/
theorem strategy_threshold_witness :
    handleStream envThr "v" tok0.1 tok0.2 none =
        streamSmall true (envThr.botFetch "bytes=0-") ∧
      handleStream envThrP "v" tok0.1 tok0.2 none =
        streamLarge (envThrP.mtFetch "bytes=0-") :=
  ⟨(strategy_threshold envThr "v" tok0.1 tok0.2 none rThr (by decide) (by decide) rfl).1 rfl,
   (strategy_threshold envThrP "v" tok0.1 tok0.2 none rThrP (by decide) (by decide) rfl).2 rfl⟩

/-- C3 counterexample: the status-normalization claim fails on both
delivery paths.  Large path: a 2xx full-body relay response (status
203, no `Content-Range`) is passed through as 203, not normalized
to 200.  Small path: an origin response with a `Content-Range` but
status 200 is answered as 206 — the response status is decided solely
by `Content-Range` presence and is not the upstream's status. -/
theorem stream_status_counterexample :
    (handleStream envLarge203 "v" tok0.1 tok0.2 none).statusOf = 203 ∧
      up203.contentRange = none ∧
      (handleStream envSmallCR "v" tok0.1 tok0.2 none).statusOf = 206 ∧
      upCR200.status = 200 := by
  refine ⟨by decide, by decide, by decide, by decide⟩

/-- C3 (amended): for every successfully relayed stream, on the
large-file path the upstream's status is passed through verbatim
(partial-content and full-body responses alike, with no normalization
to 200), while on the small-file path the status is 206 exactly when
the upstream response carries a `Content-Range` header and 200
otherwise, independently of the upstream's own status code. -/
theorem stream_status_by_path (env : StreamEnv) (videoId sig expStr : String)
    (clientRange : Option String) (m : VideoRecord)
    (hver : verifySignedUrl videoId sig expStr env.secretKey env.now = true)
    (hrec : kvGet env.kv ("video:" ++ videoId) = some (StoreVal.record m))
    (hput : env.putViewsOk = true) :
    (isLargeFile m.fileSize = true →
      respOk (env.mtFetch (forwardedRange clientRange)) = true →
      (handleStream env videoId sig expStr clientRange).statusOf =
        (env.mtFetch (forwardedRange clientRange)).status) ∧
    (isLargeFile m.fileSize = false → env.getFileOk = true →
      (handleStream env videoId sig expStr clientRange).statusOf =
        (if (env.botFetch (forwardedRange clientRange)).contentRange.isSome then 206
         else 200)) := by
  rw [handleStream_authorized env videoId sig expStr clientRange _ hver hrec hput]
  rw [show storedFileSize (StoreVal.record m) = m.fileSize from rfl]
  constructor
  · intro hbig hok
    rw [hbig, if_pos rfl]
    unfold streamLarge
    rw [hok, if_pos rfl]
    rfl
  · intro hsmall hfile
    rw [hsmall]
    rw [if_neg (by simp)]
    unfold streamSmall
    rw [hfile, if_pos rfl]
    rfl

/-- C3 witness: a large-path 206 relay keeps status 206 (passthrough),
and a small-path full-body response (no `Content-Range`) is
normalized to 200. -/
theorem stream_status_by_path_witness :
    (handleStream envLarge206 "v" tok0.1 tok0.2 none).statusOf = 206 ∧
      (handleStream envSmallOk "v" tok0.1 tok0.2 none).statusOf = 200 :=
  ⟨(stream_status_by_path envLarge206 "v" tok0.1 tok0.2 none rLargeV (by decide)
      (by decide) rfl).1 rfl rfl,
   (stream_status_by_path envSmallOk "v" tok0.1 tok0.2 none rV (by decide)
      (by decide) rfl).2 rfl rfl⟩

/-- C8: for every authorized stream request, the upstream (on either
path) is fetched at exactly the forwarded range — the client's `Range`
header verbatim, with default `bytes=0-` when absent — and the
upstream's `Content-Range` / `Content-Length`, when present, appear
verbatim (and absent ones stay absent) in the relayed response, next to
the forced `Content-Type` / `Accept-Ranges` / `Cache-Control`. -/
theorem range_forwarding_headers (env : StreamEnv) (videoId sig expStr : String)
    (clientRange : Option String) (m : VideoRecord)
    (hver : verifySignedUrl videoId sig expStr env.secretKey env.now = true)
    (hrec : kvGet env.kv ("video:" ++ videoId) = some (StoreVal.record m))
    (hput : env.putViewsOk = true) :
    (clientRange = none → forwardedRange clientRange = "bytes=0-") ∧
    (∀ r, clientRange = some r → r ≠ "" → forwardedRange clientRange = r) ∧
    (isLargeFile m.fileSize = true →
      respOk (env.mtFetch (forwardedRange clientRange)) = true →
      handleStream env videoId sig expStr clientRange =
        StreamResult.stream (env.mtFetch (forwardedRange clientRange)).status
          { contentType := "video/mp4", acceptRanges := "bytes",
            cacheControl := "public, max-age=3600",
            contentRange := (env.mtFetch (forwardedRange clientRange)).contentRange,
            contentLength := (env.mtFetch (forwardedRange clientRange)).contentLength }
          (env.mtFetch (forwardedRange clientRange)).body) ∧
    (isLargeFile m.fileSize = false → env.getFileOk = true →
      handleStream env videoId sig expStr clientRange =
        StreamResult.stream
          (if (env.botFetch (forwardedRange clientRange)).contentRange.isSome then 206
           else 200)
          { contentType := "video/mp4", acceptRanges := "bytes",
            cacheControl := "public, max-age=3600",
            contentRange := (env.botFetch (forwardedRange clientRange)).contentRange,
            contentLength := (env.botFetch (forwardedRange clientRange)).contentLength }
          (env.botFetch (forwardedRange clientRange)).body) := by
  refine ⟨?_, ?_, ?_, ?_⟩
  · intro h
    rw [h]
    rfl
  · intro r h hne
    rw [h]
    show (if r = "" then "bytes=0-" else r) = r
    rw [if_neg hne]
  · intro hbig hok
    rw [handleStream_authorized env videoId sig expStr clientRange _ hver hrec hput]
    rw [show storedFileSize (StoreVal.record m) = m.fileSize from rfl, hbig, if_pos rfl]
    unfold streamLarge
    rw [hok, if_pos rfl]
    rfl
  · intro hsmall hfile
    rw [handleStream_authorized env videoId sig expStr clientRange _ hver hrec hput]
    rw [show storedFileSize (StoreVal.record m) = m.fileSize from rfl, hsmall,
      if_neg (by simp)]
    unfold streamSmall
    rw [hfile, if_pos rfl]
    rfl

/-- C8 witness: with an origin that echoes the `Range` header it
receives, the request header `Range: bytes=100-199` reaches the
upstream verbatim and its `Content-Range` / `Content-Length` come back
verbatim in the relayed response. -/
theorem range_forwarding_headers_witness :
    handleStream envEcho "v" tok0.1 tok0.2 (some "bytes=100-199") =
      StreamResult.stream 206
        { contentType := "video/mp4", acceptRanges := "bytes",
          cacheControl := "public, max-age=3600",
          contentRange := some "echo bytes=100-199", contentLength := some "100" }
        "b" :=
  (range_forwarding_headers envEcho "v" tok0.1 tok0.2 (some "bytes=100-199") rV
    (by decide) (by decide) rfl).2.2.2 rfl rfl

/-! ## Index-consistency helper lemmas -/

theorem listKey_eq : "video:" ++ "list" = "video:list" := by decide

theorem videoKey_ne_list {id : String} (h : id ≠ "list") :
    ("video:" ++ id) ≠ "video:list" := by
  intro hk
  rw [← listKey_eq] at hk
  exact h (videoKey_inj hk)

theorem collectVideos_eq_filterMap (kv : KV) (l : List String) :
    collectVideos kv l =
      l.filterMap (fun id => (kvGet kv ("video:" ++ id)).map storedEntry) := by
  induction l with
  | nil => rfl
  | cons id rest ih =>
    rw [show collectVideos kv (id :: rest) =
        (match kvGet kv ("video:" ++ id) with
         | some v => storedEntry v :: collectVideos kv rest
         | none => collectVideos kv rest) from rfl]
    rw [List.filterMap_cons]
    cases hx : kvGet kv ("video:" ++ id) with
    | none =>
      dsimp only
      exact ih
    | some v =>
      dsimp only
      rw [ih, Option.map_some']

/-- C7 counterexample: with a prior store whose index already lists
`a` (and holds its record), a second save-metadata for `a` completes
without error but leaves the index containing `a` twice — `unshift`
prepends without deduplication — refuting "the index list contains id
exactly once" over every prior store state. -/
theorem save_metadata_duplicate_counterexample :
    (handleSaveMetadata kvDup rA).isSome = true ∧
      (handleSaveMetadata kvDup rA).map (fun kv => List.count "a" (indexIds kv)) ≠
        some 1 ∧
      (handleSaveMetadata kvDup rA).map (fun kv => List.count "a" (indexIds kv)) =
        some 2 := by
  refine ⟨by decide, by decide, by decide⟩

/-- C7 (amended): after a save-metadata for id completes without error,
`get(id)` returns the saved record and, provided id was not already in
the prior index, the index contains id exactly once (the prepend does
not deduplicate, so a pre-existing occurrence would be kept alongside
the new one); after a delete of id completes without error, the index
does not contain id and `get(id)` returns absent, for every prior
store state. -/
theorem index_record_consistency (kv kv' : KV) (r : VideoRecord) (videoId : String) :
    (handleSaveMetadata kv r = some kv' → r.id ∉ indexIds kv →
      List.count r.id (indexIds kv') = 1 ∧ getRecord kv' r.id = some r) ∧
    (handleDelete kv videoId = some kv' →
      videoId ∉ indexIds kv' ∧ getRecord kv' videoId = none) := by
  constructor
  · intro h hnot
    unfold handleSaveMetadata at h
    by_cases hid : r.id = ""
    · rw [if_pos hid] at h
      exact absurd h (by simp)
    · rw [if_neg hid] at h
      dsimp only at h
      cases hG : kvGet (kvPut kv ("video:" ++ r.id) (StoreVal.record r)) "video:list" with
      | none =>
        rw [hG] at h
        simp only [Option.some.injEq] at h
        have hne : r.id ≠ "list" := by
          intro hcontra
          rw [hcontra, listKey_eq, kvGet_put_self] at hG
          exact absurd hG (by simp)
        constructor
        · unfold indexIds
          rw [← h, kvGet_put_self]
          simp
        · unfold getRecord
          rw [← h, kvGet_put_ne _ _ _ _ (videoKey_ne_list hne), kvGet_put_self]
      | some sv =>
        cases sv with
        | record r2 =>
          rw [hG] at h
          simp at h
        | ids l =>
          rw [hG] at h
          simp only [Option.some.injEq] at h
          have hne : r.id ≠ "list" := by
            intro hcontra
            rw [hcontra, listKey_eq, kvGet_put_self] at hG
            exact absurd hG (by simp)
          have hGkv : kvGet kv "video:list" = some (StoreVal.ids l) := by
            rw [← hG, kvGet_put_ne _ _ _ _ (Ne.symm (videoKey_ne_list hne))]
          have hnotl : r.id ∉ l := by
            unfold indexIds at hnot
            rw [hGkv] at hnot
            exact hnot
          constructor
          · unfold indexIds
            rw [← h, kvGet_put_self]
            rw [List.count_cons_self]
            rw [List.count_eq_zero.mpr hnotl]
          · unfold getRecord
            rw [← h, kvGet_put_ne _ _ _ _ (videoKey_ne_list hne), kvGet_put_self]
  · intro h
    unfold handleDelete at h
    cases hk : kvGet kv ("video:" ++ videoId) with
    | none =>
      rw [hk] at h
      simp at h
    | some v =>
      rw [hk] at h
      dsimp only at h
      cases hG : kvGet (kvDelete kv ("video:" ++ videoId)) "video:list" with
      | none =>
        rw [hG] at h
        simp only [Option.some.injEq] at h
        constructor
        · unfold indexIds
          rw [← h, kvGet_put_self]
          simp
        · unfold getRecord
          by_cases hl : videoId = "list"
          · rw [← h, hl, listKey_eq, kvGet_put_self]
          · rw [← h, kvGet_put_ne _ _ _ _ (videoKey_ne_list hl), kvGet_delete_self]
      | some sv2 =>
        cases sv2 with
        | record r2 =>
          rw [hG] at h
          simp at h
        | ids l =>
          rw [hG] at h
          simp only [Option.some.injEq] at h
          constructor
          · unfold indexIds
            rw [← h, kvGet_put_self]
            intro hmem
            rw [List.mem_filter] at hmem
            simp at hmem
          · unfold getRecord
            by_cases hl : videoId = "list"
            · rw [← h, hl, listKey_eq, kvGet_put_self]
            · rw [← h, kvGet_put_ne _ _ _ _ (videoKey_ne_list hl), kvGet_delete_self]

/-- C7 witness: creating `a` in an empty store yields the store `kvDup`
with `a` indexed exactly once and its record readable; deleting `a`
from `kvDup` yields `kvDel`, with `a` gone from the index and the
record absent. -/
theorem index_record_consistency_witness :
    (List.count "a" (indexIds kvDup) = 1 ∧ getRecord kvDup "a" = some rA) ∧
      ("a" ∉ indexIds kvDel ∧ getRecord kvDel "a" = none) :=
  ⟨(index_record_consistency [] kvDup rA "x").1 (by decide) (by decide),
   (index_record_consistency kvDup kvDel rA "a").2 (by decide)⟩

/-- C10: for every store whose index key is absent or holds an id list,
the videos listing succeeds and returns exactly one entry per index id
whose stored value is present, in index order, silently omitting ids
whose key is absent; every returned entry is the projection of a value
actually present in the store.  `handleGetVideos` is a pure read of the
store (the handler performs no write), so the stored index is not
altered. -/
theorem get_videos_listing (kv : KV) :
    (kvGet kv "video:list" = none → handleGetVideos kv = some []) ∧
    (∀ l, kvGet kv "video:list" = some (StoreVal.ids l) →
      handleGetVideos kv =
        some (l.filterMap (fun id => (kvGet kv ("video:" ++ id)).map storedEntry))) := by
  constructor
  · intro h
    unfold handleGetVideos getVideoListVal
    rw [h]
    rfl
  · intro l h
    unfold handleGetVideos getVideoListVal
    rw [h]
    dsimp only
    rw [collectVideos_eq_filterMap]

/-- C10 witness: a store listing `a`, a dangling `gone`, and `b`
answers the two live records in index order, with `gone` silently
omitted. -/
theorem get_videos_listing_witness :
    handleGetVideos kvListing =
      some [CatalogEntry.vid (summarize rA), CatalogEntry.vid (summarize rB)] :=
  (get_videos_listing kvListing).2 ["a", "gone", "b"] (by decide)

end Worker
